import Mathlib

/-!
Shallow embedding of malloc_count.c (allocation-counting interposer).

Modelling conventions:
* `size_t` values are `Nat`; the statistics counters (`long long` in the
  source) are `Int`.  The accessor functions convert `long long` to
  `size_t`, modelled as reduction modulo 2 ^ 64.
* Pointers are `Nat` addresses; the null pointer is the address 0.  The
  static array `init_heap` occupies addresses
  `[heapBase, heapBase + INIT_HEAP_SIZE)`; a real static array never has
  address 0, so theorems about null handling assume `0 < heapBase`.
* Memory is word-granular: `mem a` is the `size_t` value read by
  `*(size_t*)a`.  The program only accesses the three header fields at
  offsets 0, 8 and 24 from a header base, so this abstraction is exact
  for every access the source performs.
* The real allocator (reached through the dlsym-loaded function
  pointers) is an oracle: each entry point takes the address the real
  allocator would return as an extra argument, and every delegation to
  the real allocator is recorded in `realLog`.  `ready` models that the
  constructor `init` has run and all four `real_*` pointers are set
  (the source resolves all four or exits).
* `fprintf(stderr, ...)` diagnostics are recorded as tags in `diags`;
  `exit(EXIT_FAILURE)` is modelled by the entry point returning `none`.
* The registered callback only observes the counters and is not modelled.
-/

/-- header size in bytes (`static const size_t alignment = 32`). -/
def alignment : Nat := 32

/-- `sizeof(size_t)` on the 64-bit platform the source targets. -/
def sizeofSizeT : Nat := 8

/-- the sentinel value prefixed to each allocation (`0xDEADC0DE`). -/
def sentinel : Nat := 0xDEADC0DE

/-- `INIT_HEAP_SIZE` = 1024*1024. -/
def INIT_HEAP_SIZE : Nat := 1024 * 1024

/-- 2 ^ 64, the modulus of `size_t` arithmetic. -/
def WORD : Nat := 2 ^ 64

/-- Tags for the diagnostic messages the source prints to stderr. -/
inductive Diag where
  | noSentinelFree
  | noSentinelRealloc
  | freeWithoutRealFree
  | freeOnInitHeap
  | reallocOnInitHeap
  | mallocOnInitHeap
  deriving DecidableEq, Repr

/-- One delegation to the real allocator, as observed at the boundary:
which primitive was called, with which argument values, and (for the
allocating ones) which address the oracle returned. -/
inductive RealCall where
  | rmalloc (req : Nat) (ret : Nat)
  | raligned (al : Nat) (req : Nat) (ret : Nat)
  | rfree (p : Nat)
  | rrealloc (p : Nat) (req : Nat) (ret : Nat)
  deriving DecidableEq, Repr

/-- The process-wide state of malloc_count: the four statistics counters,
the bootstrap-heap bump cursor, readiness of the dlsym-resolved real
allocator, word-granular memory, and the two observation logs. -/
structure MCState where
  curr : Int
  peak : Int
  total : Int
  num_allocs : Int
  ready : Bool
  heapBase : Nat
  init_heap_use : Nat
  mem : Nat → Nat
  realLog : List RealCall
  diags : List Diag

/-- write the `size_t` value `v` at address `a` (`*(size_t*)a = v`). -/
def writeMem (m : Nat → Nat) (a v : Nat) : Nat → Nat :=
  fun x => if x = a then v else m x

/-- model of `memcpy(dst, src, len)` (also used for the copying the real
realloc performs when it moves a block). -/
def memMove (m : Nat → Nat) (src dst len : Nat) : Nat → Nat :=
  fun x => if dst ≤ x ∧ x < dst + len then m (src + (x - dst)) else m x

/-- model of `memset(a, 0, len)`. -/
def memsetZero (m : Nat → Nat) (a len : Nat) : Nat → Nat :=
  fun x => if a ≤ x ∧ x < a + len then 0 else m x

/-- the three header stores performed at every allocation site:
`*(size_t*)ret = size; *(size_t*)(ret+8) = extra;
*(size_t*)(ret + alignment - 8) = sentinel`. -/
def MCState.writeHeader (st : MCState) (ret size extra : Nat) : MCState :=
  let m1 := writeMem st.mem ret size
  let m2 := writeMem m1 (ret + sizeofSizeT) extra
  let m3 := writeMem m2 (ret + (alignment - sizeofSizeT)) sentinel
  { st with mem := m3 }

/-- `inc_count` (single-counter configuration, THREAD_SAFE_GCC_INTRINSICS
off): `if ((curr += inc) > peak) peak = curr; total += inc; ++num_allocs;`. -/
def MCState.inc_count (st : MCState) (inc : Nat) : MCState :=
  let c : Int := st.curr + inc
  { st with curr := c, peak := max st.peak c,
            total := st.total + inc, num_allocs := st.num_allocs + 1 }

/-- `dec_count`: `curr -= dec;`. -/
def MCState.dec_count (st : MCState) (dec : Nat) : MCState :=
  { st with curr := st.curr - dec }

/-- `malloc_count_current`: returns `curr` converted to `size_t`. -/
def MCState.malloc_count_current (st : MCState) : Nat :=
  (st.curr % (WORD : Int)).toNat

/-- `malloc_count_peak`: returns `peak` converted to `size_t`. -/
def MCState.malloc_count_peak (st : MCState) : Nat :=
  (st.peak % (WORD : Int)).toNat

/-- `malloc_count_num_allocs`: returns `num_allocs` converted to `size_t`. -/
def MCState.malloc_count_num_allocs (st : MCState) : Nat :=
  (st.num_allocs % (WORD : Int)).toNat

/-- `malloc_count_reset_peak`: `peak = curr;`. -/
def MCState.malloc_count_reset_peak (st : MCState) : MCState :=
  { st with peak := st.curr }

/-- interposed `malloc(size)`.  `base` is the address the real malloc
returns for the padded request (oracle, used only on the ready path).
Result `none` models `exit(EXIT_FAILURE)` (init heap full); otherwise
`some (state, p)` with `p` the returned pointer (0 = NULL). -/
def MCState.malloc (st : MCState) (size : Nat) (base : Nat) :
    Option (MCState × Nat) :=
  if size = 0 then some (st, 0)
  else if st.ready then
    let st1 := { st with
      realLog := RealCall.rmalloc (alignment + size) base :: st.realLog }
    let st2 := st1.inc_count size
    let st3 := st2.writeHeader base size 0
    some (st3, base + alignment)
  else
    if INIT_HEAP_SIZE < st.init_heap_use + alignment + size then
      none
    else
      let ret := st.heapBase + st.init_heap_use
      let st1 := { st with
        init_heap_use := st.init_heap_use + alignment + size }
      let st2 := st1.writeHeader ret size 0
      some (st2, ret + alignment)

/-- the extra alignment computed by `aligned_alloc`:
`extra_alignment = 0; if (al >= alignment) extra_alignment = al - alignment;`. -/
def extra_alignment (al : Nat) : Nat :=
  if alignment ≤ al then al - alignment else 0

/-- interposed `aligned_alloc(al, size)`.  `base` is the address the real
aligned_alloc returns (oracle).  Before the resolver is ready the source
prints a diagnostic and exits, modelled as `none`. -/
def MCState.aligned_alloc (st : MCState) (al size : Nat) (base : Nat) :
    Option (MCState × Nat) :=
  if size = 0 then some (st, 0)
  else if !st.ready then none
  else
    let extra := extra_alignment al
    let st1 := { st with
      realLog := RealCall.raligned al (size + alignment + extra) base
                 :: st.realLog }
    let ret := base + extra
    let st2 := st1.inc_count size
    let st3 := st2.writeHeader ret size extra
    some (st3, ret + alignment)

/-- interposed `posix_memalign(memptr, al, size)`:
`*memptr = aligned_alloc(al, size); return 0;`.  The result carries the
stored pointer and the returned error code. -/
def MCState.posix_memalign (st : MCState) (al size base : Nat) :
    Option (MCState × Nat × Int) :=
  match st.aligned_alloc al size base with
  | none => none
  | some (st1, p) => some (st1, p, 0)

/-- interposed `memalign(al, size)`: `return aligned_alloc(al, size);`. -/
def MCState.memalign (st : MCState) (al size base : Nat) :
    Option (MCState × Nat) :=
  st.aligned_alloc al size base

/-- interposed `free(ptr)`.  Order of checks follows the source: null,
init-heap range (inclusive upper bound), missing real_free, then header
decode, sentinel validation (diagnostic only), `dec_count`, delegation of
the fully unwrapped pointer to the real free. -/
def MCState.free (st : MCState) (ptr : Nat) : MCState :=
  if ptr = 0 then st
  else if st.heapBase ≤ ptr ∧ ptr ≤ st.heapBase + st.init_heap_use then st
  else if !st.ready then
    { st with diags := Diag.freeWithoutRealFree :: st.diags }
  else
    let base := ptr - alignment
    let st1 :=
      if st.mem (base + (alignment - sizeofSizeT)) = sentinel then st
      else { st with diags := Diag.noSentinelFree :: st.diags }
    let size := st1.mem base
    let extra := st1.mem (base + sizeofSizeT)
    let st2 := st1.dec_count size
    { st2 with realLog := RealCall.rfree (base - extra) :: st2.realLog }

/-- interposed `calloc(nmemb, size)`: `size *= nmemb` is the plain
`size_t` product (modulo 2 ^ 64, no overflow check), then null on zero,
else our malloc followed by `memset(ret, 0, size)`. -/
def MCState.calloc (st : MCState) (nmemb size : Nat) (base : Nat) :
    Option (MCState × Nat) :=
  let tot := size * nmemb % WORD
  if tot = 0 then some (st, 0)
  else
    match st.malloc tot base with
    | none => none
    | some (st1, ret) =>
      some ({ st1 with mem := memsetZero st1.mem ret tot }, ret)

/-- interposed `realloc(ptr, size)`.  The init-heap range check comes
first (before the `size == 0` and `ptr == NULL` special cases), exactly
as in the source.  On the normal path the source stores 0 into the
extra-alignment header field and uses 0 as the extra alignment
(`extra_alignment = *(size_t*)(ptr + sizeof(size_t)) = 0`).  `newbase`
is the oracle address returned by the real malloc (bootstrap-grow path)
or the real realloc (normal path); the real realloc preserves the first
`min` of the old and new block sizes, modelled with `memMove`.  Calling
the unresolved `real_realloc` function pointer aborts the process,
modelled as `none`. -/
def MCState.realloc (st : MCState) (ptr size : Nat) (newbase : Nat) :
    Option (MCState × Nat) :=
  if st.heapBase ≤ ptr ∧ ptr ≤ st.heapBase + st.init_heap_use then
    let base := ptr - alignment
    let st1 :=
      if st.mem (base + (alignment - sizeofSizeT)) = sentinel then st
      else { st with diags := Diag.noSentinelRealloc :: st.diags }
    let oldsize := st1.mem base
    if size ≤ oldsize then
      some ({ st1 with mem := writeMem st1.mem base size }, base + alignment)
    else
      match st1.malloc size newbase with
      | none => none
      | some (st2, newptr) =>
        let st3 := { st2 with mem := memMove st2.mem ptr newptr oldsize }
        some (st3.free ptr, newptr)
  else if size = 0 then
    some (st.free ptr, 0)
  else if ptr = 0 then
    st.malloc size newbase
  else
    let base := ptr - alignment
    let st1 :=
      if st.mem (base + (alignment - sizeofSizeT)) = sentinel then st
      else { st with diags := Diag.noSentinelRealloc :: st.diags }
    let oldsize := st1.mem base
    let extra : Nat := 0
    let st2 := { st1 with mem := writeMem st1.mem (base + sizeofSizeT) 0 }
    let st3 := (st2.dec_count oldsize).inc_count size
    if !st3.ready then none
    else
      let st4 := { st3 with
        realLog := RealCall.rrealloc base (size + alignment + extra) newbase
                   :: st3.realLog }
      let st5 := { st4 with
        mem := writeMem
          (memMove st4.mem base newbase (alignment + min oldsize size))
          newbase size }
      some (st5, newbase + alignment + extra)

/-- a fresh process state before the constructor has run: zero counters,
empty bootstrap heap, real allocator not resolved, memory zeroed. -/
def initState (hb : Nat) : MCState :=
  { curr := 0, peak := 0, total := 0, num_allocs := 0, ready := false,
    heapBase := hb, init_heap_use := 0, mem := fun _ => 0,
    realLog := [], diags := [] }

/-- a fresh state after the constructor resolved the real allocator. -/
def readyState (hb : Nat) : MCState :=
  { initState hb with ready := true }

/-! ### Basic facts about the state operations -/

theorem alignment_eq : alignment = 32 := rfl

theorem sizeofSizeT_eq : sizeofSizeT = 8 := rfl

@[simp] theorem writeMem_same (m : Nat → Nat) (a v : Nat) :
    writeMem m a v a = v := by simp [writeMem]

@[simp] theorem writeMem_other (m : Nat → Nat) (a v x : Nat) (h : x ≠ a) :
    writeMem m a v x = m x := by simp [writeMem, h]

@[simp] theorem inc_count_curr (st : MCState) (n : Nat) :
    (st.inc_count n).curr = st.curr + n := rfl

@[simp] theorem inc_count_peak (st : MCState) (n : Nat) :
    (st.inc_count n).peak = max st.peak (st.curr + n) := rfl

@[simp] theorem inc_count_total (st : MCState) (n : Nat) :
    (st.inc_count n).total = st.total + n := rfl

@[simp] theorem inc_count_num_allocs (st : MCState) (n : Nat) :
    (st.inc_count n).num_allocs = st.num_allocs + 1 := rfl

@[simp] theorem inc_count_ready (st : MCState) (n : Nat) :
    (st.inc_count n).ready = st.ready := rfl

@[simp] theorem inc_count_heapBase (st : MCState) (n : Nat) :
    (st.inc_count n).heapBase = st.heapBase := rfl

@[simp] theorem inc_count_init_heap_use (st : MCState) (n : Nat) :
    (st.inc_count n).init_heap_use = st.init_heap_use := rfl

@[simp] theorem inc_count_mem (st : MCState) (n : Nat) :
    (st.inc_count n).mem = st.mem := rfl

@[simp] theorem inc_count_realLog (st : MCState) (n : Nat) :
    (st.inc_count n).realLog = st.realLog := rfl

@[simp] theorem inc_count_diags (st : MCState) (n : Nat) :
    (st.inc_count n).diags = st.diags := rfl

@[simp] theorem dec_count_curr (st : MCState) (n : Nat) :
    (st.dec_count n).curr = st.curr - n := rfl

@[simp] theorem dec_count_peak (st : MCState) (n : Nat) :
    (st.dec_count n).peak = st.peak := rfl

@[simp] theorem dec_count_total (st : MCState) (n : Nat) :
    (st.dec_count n).total = st.total := rfl

@[simp] theorem dec_count_num_allocs (st : MCState) (n : Nat) :
    (st.dec_count n).num_allocs = st.num_allocs := rfl

@[simp] theorem dec_count_ready (st : MCState) (n : Nat) :
    (st.dec_count n).ready = st.ready := rfl

@[simp] theorem dec_count_heapBase (st : MCState) (n : Nat) :
    (st.dec_count n).heapBase = st.heapBase := rfl

@[simp] theorem dec_count_init_heap_use (st : MCState) (n : Nat) :
    (st.dec_count n).init_heap_use = st.init_heap_use := rfl

@[simp] theorem dec_count_mem (st : MCState) (n : Nat) :
    (st.dec_count n).mem = st.mem := rfl

@[simp] theorem dec_count_realLog (st : MCState) (n : Nat) :
    (st.dec_count n).realLog = st.realLog := rfl

@[simp] theorem dec_count_diags (st : MCState) (n : Nat) :
    (st.dec_count n).diags = st.diags := rfl

@[simp] theorem writeHeader_curr (st : MCState) (r s e : Nat) :
    (st.writeHeader r s e).curr = st.curr := rfl

@[simp] theorem writeHeader_peak (st : MCState) (r s e : Nat) :
    (st.writeHeader r s e).peak = st.peak := rfl

@[simp] theorem writeHeader_total (st : MCState) (r s e : Nat) :
    (st.writeHeader r s e).total = st.total := rfl

@[simp] theorem writeHeader_num_allocs (st : MCState) (r s e : Nat) :
    (st.writeHeader r s e).num_allocs = st.num_allocs := rfl

@[simp] theorem writeHeader_ready (st : MCState) (r s e : Nat) :
    (st.writeHeader r s e).ready = st.ready := rfl

@[simp] theorem writeHeader_heapBase (st : MCState) (r s e : Nat) :
    (st.writeHeader r s e).heapBase = st.heapBase := rfl

@[simp] theorem writeHeader_init_heap_use (st : MCState) (r s e : Nat) :
    (st.writeHeader r s e).init_heap_use = st.init_heap_use := rfl

@[simp] theorem writeHeader_realLog (st : MCState) (r s e : Nat) :
    (st.writeHeader r s e).realLog = st.realLog := rfl

@[simp] theorem writeHeader_diags (st : MCState) (r s e : Nat) :
    (st.writeHeader r s e).diags = st.diags := rfl

theorem writeHeader_mem_size (st : MCState) (r s e : Nat) :
    (st.writeHeader r s e).mem r = s := by
  simp [MCState.writeHeader, writeMem, alignment, sizeofSizeT]

theorem writeHeader_mem_extra (st : MCState) (r s e : Nat) :
    (st.writeHeader r s e).mem (r + sizeofSizeT) = e := by
  simp [MCState.writeHeader, writeMem, alignment, sizeofSizeT]

theorem writeHeader_mem_sentinel (st : MCState) (r s e : Nat) :
    (st.writeHeader r s e).mem (r + (alignment - sizeofSizeT)) = sentinel := by
  simp [MCState.writeHeader, writeMem, alignment, sizeofSizeT]

theorem writeHeader_mem_frame (st : MCState) (r s e x : Nat)
    (h1 : x ≠ r) (h2 : x ≠ r + sizeofSizeT)
    (h3 : x ≠ r + (alignment - sizeofSizeT)) :
    (st.writeHeader r s e).mem x = st.mem x := by
  simp [MCState.writeHeader, writeMem, h1, h2, h3]

/-! ### Effect specifications of the entry points -/

/-- effect of `malloc` on the ready (real-allocator) path. -/
theorem malloc_ready_spec (st : MCState) (size base : Nat)
    (hready : st.ready = true) (hs : size ≠ 0) :
    ∃ st1, st.malloc size base = some (st1, base + alignment) ∧
      st1.curr = st.curr + size ∧
      st1.peak = max st.peak (st.curr + size) ∧
      st1.total = st.total + size ∧
      st1.num_allocs = st.num_allocs + 1 ∧
      st1.ready = st.ready ∧
      st1.heapBase = st.heapBase ∧
      st1.init_heap_use = st.init_heap_use ∧
      st1.diags = st.diags ∧
      st1.realLog = RealCall.rmalloc (alignment + size) base :: st.realLog ∧
      st1.mem base = size ∧
      st1.mem (base + sizeofSizeT) = 0 ∧
      st1.mem (base + (alignment - sizeofSizeT)) = sentinel ∧
      (∀ x, x ≠ base → x ≠ base + sizeofSizeT →
        x ≠ base + (alignment - sizeofSizeT) → st1.mem x = st.mem x) := by
  have heq : st.malloc size base = some
      ((({ st with realLog :=
          RealCall.rmalloc (alignment + size) base :: st.realLog
        }).inc_count size).writeHeader base size 0, base + alignment) := by
    simp [MCState.malloc, hready, hs]
  refine ⟨_, heq, rfl, rfl, rfl, rfl, rfl, rfl, rfl, rfl, rfl,
    writeHeader_mem_size _ _ _ _, writeHeader_mem_extra _ _ _ _,
    writeHeader_mem_sentinel _ _ _ _, ?_⟩
  intro x h1 h2 h3
  exact writeHeader_mem_frame _ _ _ _ _ h1 h2 h3

/-- effect of `malloc` on the bootstrap (init-heap) path, when the
request fits in the remaining arena. -/
theorem malloc_boot_spec (st : MCState) (size base : Nat)
    (hready : st.ready = false) (hs : size ≠ 0)
    (hfit : st.init_heap_use + alignment + size ≤ INIT_HEAP_SIZE) :
    ∃ st1, st.malloc size base =
        some (st1, st.heapBase + st.init_heap_use + alignment) ∧
      st1.curr = st.curr ∧
      st1.peak = st.peak ∧
      st1.total = st.total ∧
      st1.num_allocs = st.num_allocs ∧
      st1.ready = st.ready ∧
      st1.heapBase = st.heapBase ∧
      st1.init_heap_use = st.init_heap_use + alignment + size ∧
      st1.diags = st.diags ∧
      st1.realLog = st.realLog ∧
      st1.mem (st.heapBase + st.init_heap_use) = size ∧
      st1.mem (st.heapBase + st.init_heap_use + sizeofSizeT) = 0 ∧
      st1.mem (st.heapBase + st.init_heap_use + (alignment - sizeofSizeT))
        = sentinel := by
  have heq : st.malloc size base = some
      (({ st with init_heap_use := st.init_heap_use + alignment + size
        }).writeHeader (st.heapBase + st.init_heap_use) size 0,
       st.heapBase + st.init_heap_use + alignment) := by
    simp [MCState.malloc, hready, hs, Nat.not_lt.mpr hfit]
  refine ⟨_, heq, rfl, rfl, rfl, rfl, rfl, rfl, rfl, rfl, rfl,
    writeHeader_mem_size _ _ _ _, writeHeader_mem_extra _ _ _ _,
    writeHeader_mem_sentinel _ _ _ _⟩

/-- `free(NULL)` is a no-operation. -/
theorem free_null (st : MCState) : st.free 0 = st := by
  simp [MCState.free]

/-- `free` of a pointer inside the init-heap range is a no-operation. -/
theorem free_init_heap_noop (st : MCState) (ptr : Nat) (hp : ptr ≠ 0)
    (h : st.heapBase ≤ ptr ∧ ptr ≤ st.heapBase + st.init_heap_use) :
    st.free ptr = st := by
  simp [MCState.free, hp, h]

/-- effect of `free` on the real path: the header at `ptr - alignment`
is decoded, `dec_count` runs on the decoded size, and the pointer
rewound by the decoded extra alignment is delegated to the real free.
The sentinel only influences the diagnostics. -/
theorem free_real_spec (st : MCState) (ptr : Nat)
    (hready : st.ready = true) (hp : ptr ≠ 0)
    (hout : ¬(st.heapBase ≤ ptr ∧ ptr ≤ st.heapBase + st.init_heap_use)) :
    (st.free ptr).curr = st.curr - st.mem (ptr - alignment) ∧
    (st.free ptr).peak = st.peak ∧
    (st.free ptr).total = st.total ∧
    (st.free ptr).num_allocs = st.num_allocs ∧
    (st.free ptr).ready = st.ready ∧
    (st.free ptr).heapBase = st.heapBase ∧
    (st.free ptr).init_heap_use = st.init_heap_use ∧
    (st.free ptr).mem = st.mem ∧
    (st.free ptr).realLog =
      RealCall.rfree ((ptr - alignment) -
        st.mem ((ptr - alignment) + sizeofSizeT)) :: st.realLog ∧
    (st.free ptr).diags =
      (if st.mem ((ptr - alignment) + (alignment - sizeofSizeT)) = sentinel
       then st.diags else Diag.noSentinelFree :: st.diags) := by
  rw [MCState.free]
  rw [if_neg hp, if_neg hout, if_neg (by simp [hready])]
  by_cases hsent :
      st.mem ((ptr - alignment) + (alignment - sizeofSizeT)) = sentinel
  · rw [if_pos hsent]
    simp [hsent]
  · rw [if_neg hsent]
    simp [hsent]

/-! ### Evolution of the peak and current counters -/

/-- how the counters may evolve across any accounted operation other
than an explicit peak reset: the peak never decreases, and the
`current <= peak` invariant is preserved. -/
def CtrEvo (st st1 : MCState) : Prop :=
  st.peak ≤ st1.peak ∧ (st.curr ≤ st.peak → st1.curr ≤ st1.peak)

theorem CtrEvo.refl (st : MCState) : CtrEvo st st :=
  ⟨le_refl _, fun h => h⟩

theorem CtrEvo.trans {st st1 st2 : MCState}
    (h1 : CtrEvo st st1) (h2 : CtrEvo st1 st2) : CtrEvo st st2 :=
  ⟨le_trans h1.1 h2.1, fun h => h2.2 (h1.2 h)⟩

theorem CtrEvo.of_eq {st st1 : MCState}
    (hc : st1.curr = st.curr) (hp : st1.peak = st.peak) : CtrEvo st st1 :=
  ⟨le_of_eq hp.symm, fun h => by rw [hc, hp]; exact h⟩

theorem CtrEvo.inc (st : MCState) (n : Nat) : CtrEvo st (st.inc_count n) :=
  ⟨by simp, fun _ => by simp⟩

theorem CtrEvo.dec (st : MCState) (n : Nat) : CtrEvo st (st.dec_count n) := by
  refine ⟨by simp, fun h => ?_⟩
  simp only [dec_count_curr, dec_count_peak]
  have : (0 : Int) ≤ n := Int.ofNat_nonneg n
  omega

theorem CtrEvo.dec_inc (st : MCState) (m n : Nat) :
    CtrEvo st ((st.dec_count m).inc_count n) :=
  CtrEvo.trans (CtrEvo.dec st m) (CtrEvo.inc _ n)

/-- `malloc` only evolves the counters through `inc_count` (or not at
all on the zero-size and bootstrap paths). -/
theorem malloc_evo (st : MCState) (size base : Nat) (st1 : MCState)
    (r : Nat) (h : st.malloc size base = some (st1, r)) : CtrEvo st st1 := by
  rw [MCState.malloc] at h
  split at h
  · cases h
    exact CtrEvo.refl st
  · split at h
    · cases h
      exact CtrEvo.of_eq rfl rfl |>.trans (CtrEvo.inc _ size) |>.trans
        (CtrEvo.of_eq rfl rfl)
    · split at h
      · cases h
      · cases h
        exact CtrEvo.of_eq rfl rfl

/-- `aligned_alloc` likewise. -/
theorem aligned_alloc_evo (st : MCState) (al size base : Nat) (st1 : MCState)
    (r : Nat) (h : st.aligned_alloc al size base = some (st1, r)) :
    CtrEvo st st1 := by
  rw [MCState.aligned_alloc] at h
  split at h
  · cases h
    exact CtrEvo.refl st
  · split at h
    · cases h
    · cases h
      exact CtrEvo.of_eq rfl rfl |>.trans (CtrEvo.inc _ size) |>.trans
        (CtrEvo.of_eq rfl rfl)

/-- `free` only evolves the counters through `dec_count` (or not at all
on the no-op paths). -/
theorem free_evo (st : MCState) (ptr : Nat) : CtrEvo st (st.free ptr) := by
  rw [MCState.free]
  dsimp only
  split
  · exact CtrEvo.refl st
  · split
    · exact CtrEvo.refl st
    · split
      · exact CtrEvo.of_eq rfl rfl
      · split
        · exact CtrEvo.dec st _ |>.trans (CtrEvo.of_eq rfl rfl)
        · exact CtrEvo.of_eq rfl rfl |>.trans (CtrEvo.dec _ _) |>.trans
            (CtrEvo.of_eq rfl rfl)

/-- `calloc` evolves the counters exactly as its inner `malloc`. -/
theorem calloc_evo (st : MCState) (nmemb size base : Nat) (st1 : MCState)
    (r : Nat) (h : st.calloc nmemb size base = some (st1, r)) :
    CtrEvo st st1 := by
  rw [MCState.calloc] at h
  split at h
  · cases h
    exact CtrEvo.refl st
  · cases hm : st.malloc (size * nmemb % WORD) base with
    | none => rw [hm] at h; cases h
    | some p =>
      rw [hm] at h
      cases h
      exact (malloc_evo st _ base p.1 p.2 (by rw [hm])).trans
        (CtrEvo.of_eq rfl rfl)

/-- `realloc` evolves the counters through `dec_count` then `inc_count`
on the normal path, through the inner `malloc` and no-op `free` on the
bootstrap-grow path, and not at all otherwise. -/
theorem realloc_evo (st : MCState) (ptr size newbase : Nat) (st1 : MCState)
    (r : Nat) (h : st.realloc ptr size newbase = some (st1, r)) :
    CtrEvo st st1 := by
  rw [MCState.realloc] at h
  dsimp only at h
  split at h
  · -- init-heap path: split on the sentinel check first
    split at h
    · -- sentinel ok
      split at h
      · cases h
        exact CtrEvo.of_eq rfl rfl
      · cases hm : st.malloc size newbase with
        | none => rw [hm] at h; cases h
        | some p =>
          obtain ⟨st2, newptr⟩ := p
          rw [hm] at h
          cases h
          exact ((malloc_evo st size newbase st2 r hm).trans
            (CtrEvo.of_eq rfl rfl)).trans (free_evo _ ptr)
    · -- sentinel mismatch
      split at h
      · cases h
        exact CtrEvo.of_eq rfl rfl
      · cases hm : ({ st with diags := Diag.noSentinelRealloc :: st.diags
            }).malloc size newbase with
        | none => rw [hm] at h; cases h
        | some p =>
          obtain ⟨st2, newptr⟩ := p
          rw [hm] at h
          cases h
          exact (((CtrEvo.of_eq rfl rfl).trans
            (malloc_evo _ size newbase st2 r hm)).trans
            (CtrEvo.of_eq rfl rfl)).trans (free_evo _ ptr)
  · split at h
    · cases h
      exact free_evo st ptr
    · split at h
      · exact malloc_evo st size newbase st1 r h
      · split at h
        · split at h
          · cases h
          · cases h
            exact (CtrEvo.dec_inc st _ _).trans (CtrEvo.of_eq rfl rfl)
        · split at h
          · cases h
          · cases h
            exact ((CtrEvo.of_eq rfl rfl).trans
              (CtrEvo.dec_inc _ _ _)).trans (CtrEvo.of_eq rfl rfl)

/-! ### Traces of malloc/free events after the resolver is ready -/

/-- one event of a malloc/free trace: a malloc of `size` for which the
real allocator returns the block address `base`, or a free of the user
pointer `p`. -/
inductive Op where
  | mall (size base : Nat)
  | fre (p : Nat)
  deriving DecidableEq, Repr

/-- run one trace event (`none` = the process exited). -/
def MCState.runOp (st : MCState) : Op → Option MCState
  | Op.mall size base => (st.malloc size base).map Prod.fst
  | Op.fre p => some (st.free p)

/-- run a trace of events, propagating process exit. -/
def MCState.run (st : MCState) : List Op → Option MCState
  | [] => some st
  | op :: rest =>
    match st.runOp op with
    | none => none
    | some st1 => st1.run rest

/-- sum of the requested sizes of a list of live blocks (header base,
requested size). -/
def liveSum (l : List (Nat × Nat)) : Int :=
  (l.map fun q => ((q.2 : Int))).sum

/-- total of the sizes requested by the mallocs of a trace. -/
def mallocTotal : List Op → Int
  | [] => 0
  | Op.mall s _ :: rest => (s : Int) + mallocTotal rest
  | Op.fre _ :: rest => mallocTotal rest

/-- number of mallocs in a trace. -/
def mallocCount : List Op → Int
  | [] => 0
  | Op.mall _ _ :: rest => 1 + mallocCount rest
  | Op.fre _ :: rest => mallocCount rest

/-- two header blocks (of `alignment` bytes each) do not overlap. -/
def hdrDisj (b c : Nat) : Prop := b + alignment ≤ c ∨ c + alignment ≤ b

/-- well-formedness of a trace with respect to the list `live` of live
blocks (header base, requested size): every malloc has positive size and
receives from the real allocator a block beyond the used part of the
init heap whose header does not overlap any live header; every free
targets the user pointer of some live block and retires it; at the end
of the trace every block has been freed exactly once. -/
def TraceOK (HB use : Nat) : List (Nat × Nat) → List Op → Prop
  | live, [] => live = []
  | live, Op.mall s b :: rest =>
    0 < s ∧ HB + use < b ∧ (∀ q ∈ live, hdrDisj b q.1) ∧
      TraceOK HB use ((b, s) :: live) rest
  | live, Op.fre p :: rest =>
    ∃ q, q ∈ live ∧ p = q.1 + alignment ∧
      TraceOK HB use (live.erase q) rest

/-- the heap invariant that justifies the decode performed by `free`:
every live block still holds its requested size and a zero extra
alignment in its header, and lies beyond the used part of the init
heap. -/
def LiveInv (st : MCState) (live : List (Nat × Nat)) : Prop :=
  ∀ q ∈ live, st.mem q.1 = q.2 ∧ st.mem (q.1 + sizeofSizeT) = 0 ∧
    st.heapBase + st.init_heap_use < q.1

theorem liveSum_nil : liveSum [] = 0 := rfl

theorem liveSum_cons (q : Nat × Nat) (l : List (Nat × Nat)) :
    liveSum (q :: l) = q.2 + liveSum l := by
  simp [liveSum]

theorem liveSum_erase (l : List (Nat × Nat)) (q : Nat × Nat) (hq : q ∈ l) :
    liveSum (l.erase q) = liveSum l - q.2 := by
  induction l with
  | nil => cases hq
  | cons a l ih =>
    rcases List.mem_cons.mp hq with h | h
    · subst h
      simp [List.erase_cons_head, liveSum_cons]
    · by_cases hqa : a = q
      · subst hqa
        simp [List.erase_cons_head, liveSum_cons]
      · simp only [List.erase_cons, beq_iff_eq, hqa, if_false]
        rw [liveSum_cons, liveSum_cons, ih h]
        omega

/-- the accounting of a well-formed ready-state trace: it never aborts,
`curr` moves down by exactly the initially live sizes, `total` moves up
by exactly the malloc-ed sizes, and `num_allocs` counts the mallocs. -/
theorem run_trace (ops : List Op) :
    ∀ (live : List (Nat × Nat)) (st : MCState),
    st.ready = true → LiveInv st live →
    TraceOK st.heapBase st.init_heap_use live ops →
    ∃ st1, st.run ops = some st1 ∧
      st1.curr = st.curr - liveSum live ∧
      st1.total = st.total + mallocTotal ops ∧
      st1.num_allocs = st.num_allocs + mallocCount ops := by
  induction ops with
  | nil =>
    intro live st hready hinv htr
    have hl : live = [] := htr
    subst hl
    refine ⟨st, rfl, ?_, ?_, ?_⟩
    · simp [liveSum]
    · simp [mallocTotal]
    · simp [mallocCount]
  | cons op rest ih =>
    intro live st hready hinv htr
    cases op with
    | mall s b =>
      simp only [TraceOK] at htr
      obtain ⟨hs, hb, hdisj, htr1⟩ := htr
      obtain ⟨st1, heq, hcurr, hpeak, htotal, hnum, hready1, hhb, huse,
        hdiags, hlog, hm1, hm2, hm3, hframe⟩ :=
        malloc_ready_spec st s b hready hs.ne'
      have hinv1 : LiveInv st1 ((b, s) :: live) := by
        intro q hq
        rcases List.mem_cons.mp hq with hq0 | hq1
        · subst hq0
          exact ⟨hm1, hm2, by rw [hhb, huse]; exact hb⟩
        · obtain ⟨h1, h2, h3⟩ := hinv q hq1
          have hd : b + 32 ≤ q.1 ∨ q.1 + 32 ≤ b := hdisj q hq1
          have e1 : st1.mem q.1 = st.mem q.1 :=
            hframe q.1 (by omega) (by show q.1 ≠ b + 8; omega)
              (by show q.1 ≠ b + 24; omega)
          have e2 : st1.mem (q.1 + sizeofSizeT) =
              st.mem (q.1 + sizeofSizeT) :=
            hframe (q.1 + sizeofSizeT) (by show q.1 + 8 ≠ b; omega)
              (by show q.1 + 8 ≠ b + 8; omega)
              (by show q.1 + 8 ≠ b + 24; omega)
          exact ⟨e1.trans h1, e2.trans h2, by rw [hhb, huse]; exact h3⟩
      have htr2 : TraceOK st1.heapBase st1.init_heap_use ((b, s) :: live)
          rest := by
        rw [hhb, huse]; exact htr1
      obtain ⟨stf, hrun, hc, ht, hn⟩ :=
        ih ((b, s) :: live) st1 (hready1.trans hready) hinv1 htr2
      refine ⟨stf, ?_, ?_, ?_, ?_⟩
      · simp only [MCState.run, MCState.runOp, heq, Option.map_some']
        exact hrun
      · rw [hc, hcurr, liveSum_cons]
        omega
      · rw [ht, htotal]
        simp only [mallocTotal]
        omega
      · rw [hn, hnum]
        simp only [mallocCount]
        omega
    | fre p =>
      simp only [TraceOK] at htr
      obtain ⟨q, hq, hp, htr1⟩ := htr
      obtain ⟨hmem1, hmem2, hbeyond⟩ := hinv q hq
      have hp0 : p ≠ 0 := by
        rw [hp]; show q.1 + 32 ≠ 0; omega
      have hout : ¬(st.heapBase ≤ p ∧ p ≤ st.heapBase + st.init_heap_use)
          := by
        rw [hp]; show ¬(_ ≤ q.1 + 32 ∧ q.1 + 32 ≤ _); omega
      obtain ⟨fc, fp, ft, fn, fr, fhb, fuse, fmem, flog, fdiag⟩ :=
        free_real_spec st p hready hp0 hout
      have hdec : p - alignment = q.1 := by
        rw [hp]; omega
      have hinv1 : LiveInv (st.free p) (live.erase q) := by
        intro r hr
        obtain ⟨h1, h2, h3⟩ := hinv r (List.mem_of_mem_erase hr)
        rw [fmem, fhb, fuse]
        exact ⟨h1, h2, h3⟩
      have htr2 : TraceOK (st.free p).heapBase (st.free p).init_heap_use
          (live.erase q) rest := by
        rw [fhb, fuse]; exact htr1
      obtain ⟨stf, hrun, hc, ht, hn⟩ :=
        ih (live.erase q) (st.free p) (fr.trans hready) hinv1 htr2
      refine ⟨stf, ?_, ?_, ?_, ?_⟩
      · simp only [MCState.run, MCState.runOp]
        exact hrun
      · rw [hc, fc, hdec, hmem1, liveSum_erase live q hq]
        omega
      · rw [ht, ft]
        simp only [mallocTotal]
      · rw [hn, fn]
        simp only [mallocCount]

/-! ### Concrete states used by witnesses and counterexamples -/

/-- a ready state after `aligned_alloc(64, 8)` was served by the real
aligned allocator at base address 4096: the user pointer is 4160 and the
stored extra alignment is 32. -/
def stAligned64 : MCState :=
  (((readyState 1000).aligned_alloc 64 8 4096).map Prod.fst).getD
    (readyState 1000)

/-- a pre-resolver state after a bootstrap `malloc(100)`: the user
pointer 1032 lies inside the init heap. -/
def bootSt : MCState :=
  (((initState 1000).malloc 100 5).map Prod.fst).getD (initState 1000)

/-- a ready state whose memory holds a block header at 4128 with size 8,
extra alignment 0 and a clobbered (non-sentinel) sentinel field. -/
def corruptSt : MCState :=
  { readyState 1000 with mem := writeMem (fun _ => 0) 4128 8 }

/-! ### The claims -/

/-- Claim C8: for every alignment `a`, `malloc(0)` and
`aligned_alloc(a, 0)` return a null result and leave the state -- in
particular all four counters `current`, `count`, `total` and `peak` --
completely unchanged, without writing any header. -/
theorem zero_size_requests_null (st : MCState) (a b : Nat) :
    st.malloc 0 b = some (st, 0) ∧ st.aligned_alloc a 0 b = some (st, 0) :=
  ⟨by simp [MCState.malloc], by simp [MCState.aligned_alloc]⟩

/-- Claim C10: `posix_memalign(memptr, al, size)` stores the result of
`aligned_alloc(al, size)` into `*memptr` and returns 0 whenever it
returns at all, even for `size == 0` (storing null); and `memalign`
returns exactly `aligned_alloc`. -/
theorem posix_memalign_always_zero (st : MCState) (al size base : Nat) :
    (∀ (st1 : MCState) (p : Nat) (rc : Int),
      st.posix_memalign al size base = some (st1, p, rc) →
      rc = 0 ∧ st.aligned_alloc al size base = some (st1, p)) ∧
    st.posix_memalign al 0 base = some (st, 0, 0) ∧
    st.memalign al size base = st.aligned_alloc al size base := by
  refine ⟨?_, ?_, rfl⟩
  · intro st1 p rc h
    rw [MCState.posix_memalign] at h
    cases hm : st.aligned_alloc al size base with
    | none => rw [hm] at h; cases h
    | some r =>
      obtain ⟨st2, p2⟩ := r
      rw [hm] at h
      cases h
      exact ⟨rfl, rfl⟩
  · rw [MCState.posix_memalign]
    simp [MCState.aligned_alloc]

/-- witness for C10 at a concrete input: `posix_memalign(64, 8)` on a
fresh ready state returns the code 0 and stores the pointer 4160
produced by `aligned_alloc(64, 8)`. -/
theorem posix_memalign_always_zero_witness :
    (0 : Int) = 0 ∧ (readyState 1000).aligned_alloc 64 8 4096 =
      some (stAligned64, 4160) :=
  (posix_memalign_always_zero (readyState 1000) 64 8 4096).1
    stAligned64 4160 0 rfl

/-- Claim C3: with the resolver ready, for a power-of-two alignment `al`
and a positive size, `aligned_alloc(al, size)` computes
`extra_alignment = max(0, al - alignment)`, requests
`size + alignment + extra_alignment` bytes from the real aligned
allocator at alignment `al`, and returns the user pointer
`base + extra_alignment + alignment`, a multiple of `al` whenever the
real allocator honoured its own alignment contract (`al ∣ base`). -/
theorem aligned_alloc_alignment_contract (st : MCState)
    (al size base k : Nat) (hready : st.ready = true) (hs : 0 < size)
    (hal : al = 2 ^ k) (hbase : base % al = 0) :
    ∃ st1, st.aligned_alloc al size base =
        some (st1, base + extra_alignment al + alignment) ∧
      ((extra_alignment al : Int)) =
        max 0 ((al : Int) - ((alignment : Int))) ∧
      st1.realLog = RealCall.raligned al
        (size + alignment + extra_alignment al) base :: st.realLog ∧
      (base + extra_alignment al + alignment) % al = 0 ∧
      st1.curr = st.curr + size ∧ st1.total = st.total + size ∧
      st1.num_allocs = st.num_allocs + 1 ∧
      st1.peak = max st.peak (st.curr + size) := by
  have heq : st.aligned_alloc al size base = some ((({ st with realLog := RealCall.raligned al (size + alignment + extra_alignment al) base :: st.realLog }).inc_count size).writeHeader (base + extra_alignment al) size (extra_alignment al), base + extra_alignment al + alignment) := by
    simp [MCState.aligned_alloc, hready, hs.ne']
  refine ⟨_, heq, ?_, rfl, ?_, rfl, rfl, rfl, rfl⟩
  · rw [extra_alignment]
    split
    next h =>
      rw [alignment_eq] at h ⊢
      push_cast
      omega
    next h =>
      rw [alignment_eq] at h ⊢
      push_cast
      omega
  · rw [extra_alignment]
    split
    next h =>
      have e : base + (al - alignment) + alignment = base + al := by omega
      rw [e, Nat.add_mod_right]
      exact hbase
    next h =>
      have h32 : al < 32 := by
        rw [alignment_eq] at h
        omega
      have hk : k ≤ 5 := by
        by_contra hk5
        push_neg at hk5
        have h6 : (2 : Nat) ^ 6 ≤ 2 ^ k :=
          Nat.pow_le_pow_right (by norm_num) hk5
        rw [← hal] at h6
        norm_num at h6
        omega
      have hdvd : al ∣ 32 := by
        rw [hal]
        have h5 : (2 : Nat) ^ k ∣ 2 ^ 5 := pow_dvd_pow 2 hk
        norm_num at h5
        exact h5
      have e : base + 0 + alignment = base + 32 := by rw [alignment_eq]
      rw [e]
      obtain ⟨c, hc32⟩ := hdvd
      obtain ⟨d, hbd⟩ := Nat.dvd_of_mod_eq_zero hbase
      have e2 : base + 32 = al * (d + c) := by
        rw [Nat.mul_add, ← hbd, ← hc32]
      rw [e2, Nat.mul_mod_right]

/-- witness for C3 at the concrete input of the specification scenario:
`aligned_alloc(4096, 10)` on a fresh ready state, with the real
allocator returning base 4096, yields the user pointer 8192, a multiple
of 4096. -/
theorem aligned_alloc_alignment_contract_witness :
    (readyState 1000).ready = true ∧ 0 < 10 ∧ (4096 : Nat) = 2 ^ 12 ∧
      4096 % 4096 = 0 ∧
      (∃ st1, (readyState 1000).aligned_alloc 4096 10 4096 =
          some (st1, 4096 + extra_alignment 4096 + alignment) ∧
        ((extra_alignment 4096 : Int)) =
          max 0 ((4096 : Int) - ((alignment : Int))) ∧
        st1.realLog = RealCall.raligned 4096
          (10 + alignment + extra_alignment 4096) 4096 ::
            (readyState 1000).realLog ∧
        (4096 + extra_alignment 4096 + alignment) % 4096 = 0 ∧
        st1.curr = (readyState 1000).curr + 10 ∧
        st1.total = (readyState 1000).total + 10 ∧
        st1.num_allocs = (readyState 1000).num_allocs + 1 ∧
        st1.peak = max (readyState 1000).peak
          ((readyState 1000).curr + 10)) :=
  ⟨rfl, by norm_num, by norm_num, by norm_num,
    aligned_alloc_alignment_contract (readyState 1000) 4096 10 4096 12
      rfl (by norm_num) (by norm_num) (by norm_num)⟩

/-- Claim C5: an allocation served before the resolver is ready is
carved from the init heap by bump allocation, carries a normal header,
and is never accounted: none of `curr`, `peak`, `total`, `num_allocs`
(and hence none of the accessors) changes, no real-allocator call is
made, and a later `free` of the returned pointer -- in this or any
later state with the same heap base and an at-least-as-large bump
cursor -- is a complete no-op that delegates nothing to the real
free. -/
theorem init_heap_allocation_unaccounted (st : MCState) (size base : Nat)
    (hready : st.ready = false) (hs : 0 < size)
    (hfit : st.init_heap_use + alignment + size ≤ INIT_HEAP_SIZE) :
    ∃ st1, st.malloc size base =
        some (st1, st.heapBase + st.init_heap_use + alignment) ∧
      st1.curr = st.curr ∧ st1.peak = st.peak ∧ st1.total = st.total ∧
      st1.num_allocs = st.num_allocs ∧
      st1.malloc_count_current = st.malloc_count_current ∧
      st1.malloc_count_peak = st.malloc_count_peak ∧
      st1.malloc_count_num_allocs = st.malloc_count_num_allocs ∧
      st1.realLog = st.realLog ∧
      st1.init_heap_use = st.init_heap_use + alignment + size ∧
      st1.mem (st.heapBase + st.init_heap_use) = size ∧
      st1.mem (st.heapBase + st.init_heap_use + sizeofSizeT) = 0 ∧
      st1.mem (st.heapBase + st.init_heap_use +
        (alignment - sizeofSizeT)) = sentinel ∧
      (∀ st2 : MCState, st2.heapBase = st.heapBase →
        st1.init_heap_use ≤ st2.init_heap_use →
        st2.free (st.heapBase + st.init_heap_use + alignment) = st2) := by
  obtain ⟨st1, heq, hcurr, hpeak, htotal, hnum, hready1, hhb, huse,
    hdiags, hlog, hm1, hm2, hm3⟩ :=
    malloc_boot_spec st size base hready hs.ne' hfit
  refine ⟨st1, heq, hcurr, hpeak, htotal, hnum, ?_, ?_, ?_, hlog, huse,
    hm1, hm2, hm3, ?_⟩
  · simp [MCState.malloc_count_current, hcurr]
  · simp [MCState.malloc_count_peak, hpeak]
  · simp [MCState.malloc_count_num_allocs, hnum]
  · intro st2 h2b h2u
    apply free_init_heap_noop
    · rw [alignment_eq]
      omega
    · constructor
      · rw [h2b]
        omega
      · rw [h2b]
        rw [huse] at h2u
        omega

/-- witness for C5: a bootstrap `malloc(7)` on a fresh pre-resolver
state, returning the init-heap pointer 1032, accounted nowhere. -/
theorem init_heap_allocation_unaccounted_witness :
    (initState 1000).ready = false ∧ 0 < 7 ∧
      (initState 1000).init_heap_use + alignment + 7 ≤ INIT_HEAP_SIZE ∧
      (∃ st1, (initState 1000).malloc 7 0 =
          some (st1, (initState 1000).heapBase +
            (initState 1000).init_heap_use + alignment) ∧
        st1.curr = (initState 1000).curr ∧
        st1.peak = (initState 1000).peak ∧
        st1.total = (initState 1000).total ∧
        st1.num_allocs = (initState 1000).num_allocs ∧
        st1.malloc_count_current = (initState 1000).malloc_count_current ∧
        st1.malloc_count_peak = (initState 1000).malloc_count_peak ∧
        st1.malloc_count_num_allocs =
          (initState 1000).malloc_count_num_allocs ∧
        st1.realLog = (initState 1000).realLog ∧
        st1.init_heap_use = (initState 1000).init_heap_use + alignment + 7 ∧
        st1.mem ((initState 1000).heapBase +
          (initState 1000).init_heap_use) = 7 ∧
        st1.mem ((initState 1000).heapBase +
          (initState 1000).init_heap_use + sizeofSizeT) = 0 ∧
        st1.mem ((initState 1000).heapBase +
          (initState 1000).init_heap_use +
          (alignment - sizeofSizeT)) = sentinel ∧
        (∀ st2 : MCState, st2.heapBase = (initState 1000).heapBase →
          st1.init_heap_use ≤ st2.init_heap_use →
          st2.free ((initState 1000).heapBase +
            (initState 1000).init_heap_use + alignment) = st2)) :=
  ⟨rfl, by norm_num, by decide,
    init_heap_allocation_unaccounted (initState 1000) 7 0 rfl
      (by norm_num) (by decide)⟩

/-- Claim C6: when the sentinel decoded by `free` or `realloc` does not
match, the operation emits a corruption diagnostic and still completes:
it updates the ledger with the decoded (possibly wrong) size, still
delegates to the real free / real realloc, never terminates the
process, and reports nothing through the caller-visible result. -/
theorem sentinel_mismatch_best_effort (st : MCState) (p n nb : Nat)
    (hready : st.ready = true) (hp : p ≠ 0)
    (hout : ¬(st.heapBase ≤ p ∧ p ≤ st.heapBase + st.init_heap_use))
    (hsent : st.mem ((p - alignment) + (alignment - sizeofSizeT))
      ≠ sentinel)
    (hn : n ≠ 0) :
    ((st.free p).diags = Diag.noSentinelFree :: st.diags ∧
     (st.free p).curr = st.curr - st.mem (p - alignment) ∧
     (st.free p).total = st.total ∧
     (st.free p).num_allocs = st.num_allocs ∧
     (st.free p).realLog = RealCall.rfree ((p - alignment) -
       st.mem ((p - alignment) + sizeofSizeT)) :: st.realLog) ∧
    ((st.realloc p n nb).map (fun r => r.1.diags) =
       some (Diag.noSentinelRealloc :: st.diags) ∧
     (st.realloc p n nb).map (fun r => r.1.curr) =
       some (st.curr - st.mem (p - alignment) + n) ∧
     (st.realloc p n nb).map (fun r => r.1.total) =
       some (st.total + n) ∧
     (st.realloc p n nb).map (fun r => r.1.realLog) =
       some (RealCall.rrealloc (p - alignment) (n + alignment + 0) nb
         :: st.realLog) ∧
     (st.realloc p n nb).map (fun r => r.2) =
       some (nb + alignment + 0)) := by
  constructor
  · obtain ⟨fc, fp, ft, fn, fr, fhb, fuse, fmem, flog, fdiag⟩ :=
      free_real_spec st p hready hp hout
    exact ⟨by rw [fdiag, if_neg hsent], fc, ft, fn, flog⟩
  · rw [MCState.realloc]
    rw [if_neg hout, if_neg hn, if_neg hp]
    dsimp only
    rw [if_neg hsent]
    dsimp only
    simp only [inc_count_ready, dec_count_ready]
    rw [if_neg (by simp [hready] : ¬((!st.ready) = true))]
    exact ⟨rfl, rfl, rfl, rfl, rfl⟩

/-- witness for C6: freeing and reallocating the pointer 4160 in a
state whose header at 4128 has a clobbered sentinel; both operations
emit the diagnostic, account the decoded size 8, and still delegate. -/
theorem sentinel_mismatch_best_effort_witness :
    corruptSt.ready = true ∧ (4160 : Nat) ≠ 0 ∧
    ¬(corruptSt.heapBase ≤ 4160 ∧
      4160 ≤ corruptSt.heapBase + corruptSt.init_heap_use) ∧
    corruptSt.mem ((4160 - alignment) + (alignment - sizeofSizeT))
      ≠ sentinel ∧ (16 : Nat) ≠ 0 ∧
    (((corruptSt.free 4160).diags =
        Diag.noSentinelFree :: corruptSt.diags ∧
      (corruptSt.free 4160).curr =
        corruptSt.curr - corruptSt.mem (4160 - alignment) ∧
      (corruptSt.free 4160).total = corruptSt.total ∧
      (corruptSt.free 4160).num_allocs = corruptSt.num_allocs ∧
      (corruptSt.free 4160).realLog = RealCall.rfree ((4160 - alignment) -
        corruptSt.mem ((4160 - alignment) + sizeofSizeT))
          :: corruptSt.realLog) ∧
     ((corruptSt.realloc 4160 16 9000).map (fun r => r.1.diags) =
        some (Diag.noSentinelRealloc :: corruptSt.diags) ∧
      (corruptSt.realloc 4160 16 9000).map (fun r => r.1.curr) =
        some (corruptSt.curr - corruptSt.mem (4160 - alignment) + 16) ∧
      (corruptSt.realloc 4160 16 9000).map (fun r => r.1.total) =
        some (corruptSt.total + 16) ∧
      (corruptSt.realloc 4160 16 9000).map (fun r => r.1.realLog) =
        some (RealCall.rrealloc (4160 - alignment) (16 + alignment + 0) 9000
          :: corruptSt.realLog) ∧
      (corruptSt.realloc 4160 16 9000).map (fun r => r.2) =
        some (9000 + alignment + 0))) :=
  ⟨rfl, by decide, by decide, by decide, by decide,
    sentinel_mismatch_best_effort corruptSt 4160 16 9000 rfl (by decide)
      (by decide) (by decide) (by decide)⟩

/-- Claim C7: `current ≤ peak` is preserved by every operation
(`malloc`, `aligned_alloc`, `free`, `realloc`, `calloc`,
`reset_peak`); the peak never decreases across any of the first five;
and immediately after `malloc_count_reset_peak` the `peak` accessor
equals the `current` accessor. -/
theorem peak_current_invariant :
    (∀ (st : MCState) (s b : Nat) (st1 : MCState) (r : Nat),
      st.curr ≤ st.peak → st.malloc s b = some (st1, r) →
      st1.curr ≤ st1.peak ∧ st.peak ≤ st1.peak) ∧
    (∀ (st : MCState) (al s b : Nat) (st1 : MCState) (r : Nat),
      st.curr ≤ st.peak → st.aligned_alloc al s b = some (st1, r) →
      st1.curr ≤ st1.peak ∧ st.peak ≤ st1.peak) ∧
    (∀ (st : MCState) (p : Nat), st.curr ≤ st.peak →
      (st.free p).curr ≤ (st.free p).peak ∧
      st.peak ≤ (st.free p).peak) ∧
    (∀ (st : MCState) (p s nb : Nat) (st1 : MCState) (r : Nat),
      st.curr ≤ st.peak → st.realloc p s nb = some (st1, r) →
      st1.curr ≤ st1.peak ∧ st.peak ≤ st1.peak) ∧
    (∀ (st : MCState) (n s b : Nat) (st1 : MCState) (r : Nat),
      st.curr ≤ st.peak → st.calloc n s b = some (st1, r) →
      st1.curr ≤ st1.peak ∧ st.peak ≤ st1.peak) ∧
    (∀ st : MCState, (st.malloc_count_reset_peak).curr ≤
        (st.malloc_count_reset_peak).peak ∧
      (st.malloc_count_reset_peak).malloc_count_peak =
        (st.malloc_count_reset_peak).malloc_count_current) := by
  refine ⟨?_, ?_, ?_, ?_, ?_, ?_⟩
  · intro st s b st1 r hi h
    have he := malloc_evo st s b st1 r h
    exact ⟨he.2 hi, he.1⟩
  · intro st al s b st1 r hi h
    have he := aligned_alloc_evo st al s b st1 r h
    exact ⟨he.2 hi, he.1⟩
  · intro st p hi
    have he := free_evo st p
    exact ⟨he.2 hi, he.1⟩
  · intro st p s nb st1 r hi h
    have he := realloc_evo st p s nb st1 r h
    exact ⟨he.2 hi, he.1⟩
  · intro st n s b st1 r hi h
    have he := calloc_evo st n s b st1 r h
    exact ⟨he.2 hi, he.1⟩
  · intro st
    exact ⟨le_refl _, rfl⟩

/-- witness for C7 on a concrete state: a free of the null pointer on a
fresh ready state preserves the invariant, and a peak reset equates the
two accessors. -/
theorem peak_current_invariant_witness :
    (readyState 1000).curr ≤ (readyState 1000).peak ∧
    (((readyState 1000).free 0).curr ≤ ((readyState 1000).free 0).peak ∧
      (readyState 1000).peak ≤ ((readyState 1000).free 0).peak) ∧
    (((readyState 1000).malloc_count_reset_peak).curr ≤
        ((readyState 1000).malloc_count_reset_peak).peak ∧
      ((readyState 1000).malloc_count_reset_peak).malloc_count_peak =
        ((readyState 1000).malloc_count_reset_peak).malloc_count_current) :=
  ⟨by decide, peak_current_invariant.2.2.1 (readyState 1000) 0 (by decide),
    peak_current_invariant.2.2.2.2.2 (readyState 1000)⟩

/-- Claim C9: `calloc(nmemb, size)` first computes the plain machine
product `size * nmemb` modulo 2 ^ 64 with no overflow check; when that
total is 0 it returns null with the state unchanged; otherwise it
behaves exactly as `malloc(total)` followed by zero-filling the `total`
bytes of the returned block. -/
theorem calloc_overflow_and_zero_fill (st : MCState)
    (nmemb size base : Nat) :
    (size * nmemb % WORD = 0 →
      st.calloc nmemb size base = some (st, 0)) ∧
    (size * nmemb % WORD ≠ 0 →
      st.calloc nmemb size base =
        (st.malloc (size * nmemb % WORD) base).map (fun r =>
          ({ r.1 with
             mem := memsetZero r.1.mem r.2 (size * nmemb % WORD) }, r.2)))
    := by
  constructor
  · intro h0
    rw [MCState.calloc]
    rw [if_pos h0]
  · intro h0
    rw [MCState.calloc]
    rw [if_neg h0]
    cases hm : st.malloc (size * nmemb % WORD) base with
    | none => rfl
    | some r => rfl

/-- witness for C9: the overflowing input `nmemb = size = 2 ^ 32` has a
zero machine product, so `calloc` returns null and changes nothing; and
the benign input `calloc(3, 4)` is `malloc(12)` plus a 12-byte zero
fill. -/
theorem calloc_overflow_and_zero_fill_witness :
    ((2 : Nat) ^ 32 * 2 ^ 32 % WORD = 0 ∧
      (readyState 1000).calloc (2 ^ 32) (2 ^ 32) 4096 =
        some (readyState 1000, 0)) ∧
    ((4 : Nat) * 3 % WORD ≠ 0 ∧
      (readyState 1000).calloc 3 4 4096 =
        ((readyState 1000).malloc (4 * 3 % WORD) 4096).map (fun r =>
          ({ r.1 with mem := memsetZero r.1.mem r.2 (4 * 3 % WORD) },
            r.2))) :=
  ⟨⟨by decide,
    (calloc_overflow_and_zero_fill (readyState 1000) (2 ^ 32) (2 ^ 32)
      4096).1 (by decide)⟩,
   ⟨by decide,
    (calloc_overflow_and_zero_fill (readyState 1000) 3 4 4096).2
      (by decide)⟩⟩

/-- Claim C4 as amended: `realloc(NULL, n)` behaves identically to
`malloc(n)` for every `n`; `realloc(p, 0)` behaves identically to
`free(p)` and returns null for every pointer `p` outside the init-heap
range (the null pointer included); but for a pointer inside the
init-heap range `realloc(p, 0)` takes the init-heap path first: it
shrinks the block in place and returns `p` itself -- a non-null
result -- leaving the counters unchanged. -/
theorem realloc_null_and_zero_semantics (st : MCState) (n p b : Nat)
    (hhb : 0 < st.heapBase) :
    st.realloc 0 n b = st.malloc n b ∧
    (¬(st.heapBase ≤ p ∧ p ≤ st.heapBase + st.init_heap_use) →
      st.realloc p 0 b = some (st.free p, 0)) ∧
    ((st.heapBase ≤ p ∧ p ≤ st.heapBase + st.init_heap_use) →
      alignment ≤ p →
      (st.realloc p 0 b).map (fun r => r.2) = some p ∧ p ≠ 0 ∧
      (st.realloc p 0 b).map (fun r => r.1.curr) = some st.curr ∧
      (st.realloc p 0 b).map (fun r => r.1.total) = some st.total ∧
      (st.realloc p 0 b).map (fun r => r.1.num_allocs) =
        some st.num_allocs ∧
      (st.realloc p 0 b).map (fun r => r.1.realLog) = some st.realLog)
    := by
  refine ⟨?_, ?_, ?_⟩
  · rw [MCState.realloc]
    rw [if_neg (by rintro ⟨h1, h2⟩; omega :
      ¬(st.heapBase ≤ 0 ∧ 0 ≤ st.heapBase + st.init_heap_use))]
    by_cases hn : n = 0
    · subst hn
      rw [if_pos rfl, free_null]
      simp [MCState.malloc]
    · rw [if_neg hn, if_pos rfl]
  · intro hout
    rw [MCState.realloc]
    rw [if_neg hout, if_pos rfl]
  · intro harena hge
    rw [MCState.realloc, if_pos harena]
    dsimp only
    split
    next hsent =>
      rw [if_pos (Nat.zero_le _)]
      refine ⟨?_, ?_, rfl, rfl, rfl, rfl⟩
      · show some (p - alignment + alignment) = some p
        exact congrArg some (by omega)
      · rw [alignment_eq] at hge
        omega
    next hsent =>
      rw [if_pos (Nat.zero_le _)]
      refine ⟨?_, ?_, rfl, rfl, rfl, rfl⟩
      · show some (p - alignment + alignment) = some p
        exact congrArg some (by omega)
      · rw [alignment_eq] at hge
        omega

/-- counterexample to Claim C4 as stated: the pointer 1032 lies inside
the init-heap range of `bootSt`, and `realloc(1032, 0)` returns the
non-null pointer 1032 instead of behaving as `free` and returning
null. -/
theorem realloc_zero_init_heap_counterexample :
    (bootSt.heapBase ≤ 1032 ∧
      1032 ≤ bootSt.heapBase + bootSt.init_heap_use) ∧
    (bootSt.realloc 1032 0 0).map (fun r => r.2) ≠ some 0 :=
  ⟨by decide, by decide⟩

/-- witness for C4 (amended), on concrete inputs: a null realloc equals
the corresponding malloc, a zero-size realloc of the out-of-heap
pointer 5000 equals its free, and a zero-size realloc of the init-heap
pointer 1032 returns 1032 with counters unchanged. -/
theorem realloc_null_and_zero_semantics_witness :
    0 < bootSt.heapBase ∧
    bootSt.realloc 0 64 77 = bootSt.malloc 64 77 ∧
    ¬(bootSt.heapBase ≤ 5000 ∧
      5000 ≤ bootSt.heapBase + bootSt.init_heap_use) ∧
    bootSt.realloc 5000 0 77 = some (bootSt.free 5000, 0) ∧
    ((bootSt.realloc 1032 0 77).map (fun r => r.2) = some 1032 ∧
      (1032 : Nat) ≠ 0 ∧
      (bootSt.realloc 1032 0 77).map (fun r => r.1.curr) =
        some bootSt.curr ∧
      (bootSt.realloc 1032 0 77).map (fun r => r.1.total) =
        some bootSt.total ∧
      (bootSt.realloc 1032 0 77).map (fun r => r.1.num_allocs) =
        some bootSt.num_allocs ∧
      (bootSt.realloc 1032 0 77).map (fun r => r.1.realLog) =
        some bootSt.realLog) :=
  ⟨by decide,
   (realloc_null_and_zero_semantics bootSt 64 5000 77 (by decide)).1,
   by decide,
   (realloc_null_and_zero_semantics bootSt 64 5000 77 (by decide)).2.1
     (by decide),
   (realloc_null_and_zero_semantics bootSt 64 1032 77 (by decide)).2.2
     (by decide) (by decide)⟩

/-- Claim C2 at its failing input (the claim holds for `free` but not
for `realloc`): in `stAligned64` the pointer 4160 was produced by
`aligned_alloc(64, 8)` over the real base 4096 with stored extra
alignment 32.  `free(4160)` decodes the header, recovers size and extra
alignment, and delegates `4160 - 32 - 32 = 4096` to the real free,
exactly as the claim states; but `realloc(4160, 16)` overwrites the
stored extra-alignment field with 0 and delegates `4160 - 32 = 4128` --
not the real base 4096 -- to the real realloc. -/
theorem realloc_drops_extra_alignment :
    stAligned64.mem ((4160 - alignment) + sizeofSizeT) = 32 ∧
    (stAligned64.free 4160).realLog.head? =
      some (RealCall.rfree (4160 - alignment - 32)) ∧
    4160 - alignment - 32 = 4096 ∧
    (stAligned64.realloc 4160 16 9000).map (fun r => r.1.realLog.head?) =
      some (some (RealCall.rrealloc 4128 (16 + alignment + 0) 9000)) ∧
    (stAligned64.realloc 4160 16 9000).map
      (fun r => r.1.mem ((4160 - alignment) + sizeofSizeT)) = some 0 ∧
    (4128 : Nat) ≠ 4160 - alignment - 32 :=
  ⟨by decide, by decide, by decide, by decide, by decide, by decide⟩

/-- Claim C1: with the resolver ready, (i) each `malloc(s)` with
`s > 0` increases `curr` and `total` by `s`, increases the allocation
count by 1 and sets the peak to `max(peak, curr + s)`; (ii) each
`free(p)` of a block whose header records the requested size `s`
decreases `curr` by exactly `s` and leaves `total` and the count
unchanged; (iii) every well-formed trace -- every pointer returned by a
malloc is freed exactly once -- completes with `curr` back at its
initial value (0 when it started at 0), `total` increased by the sum of
the requested sizes and the count increased by the number of mallocs;
and (iv) the concrete scenario: allocate(100) gives current 100, peak
100, count 1; allocate(50) gives current 150, peak 150, count 2;
freeing the first pointer gives current 50 with peak 150 and count
unchanged; freeing the second gives current 0. -/
theorem malloc_free_sequence_accounting :
    (∀ (st : MCState) (s b : Nat), st.ready = true → 0 < s →
      ∃ st1, st.malloc s b = some (st1, b + alignment) ∧
        st1.curr = st.curr + s ∧ st1.total = st.total + s ∧
        st1.num_allocs = st.num_allocs + 1 ∧
        st1.peak = max st.peak (st.curr + s)) ∧
    (∀ (st : MCState) (p s : Nat), st.ready = true → p ≠ 0 →
      ¬(st.heapBase ≤ p ∧ p ≤ st.heapBase + st.init_heap_use) →
      st.mem (p - alignment) = s →
      (st.free p).curr = st.curr - s ∧ (st.free p).total = st.total ∧
      (st.free p).num_allocs = st.num_allocs) ∧
    (∀ (ops : List Op) (st : MCState), st.ready = true →
      TraceOK st.heapBase st.init_heap_use [] ops →
      ∃ st1, st.run ops = some st1 ∧ st1.curr = st.curr ∧
        st1.total = st.total + mallocTotal ops ∧
        st1.num_allocs = st.num_allocs + mallocCount ops ∧
        (st.curr = 0 → st1.curr = 0)) ∧
    ((((readyState 1000).run [Op.mall 100 4096]).map
        (fun st => (st.curr, st.peak, st.num_allocs))) =
      some (100, 100, 1) ∧
     (((readyState 1000).run [Op.mall 100 4096, Op.mall 50 8192]).map
        (fun st => (st.curr, st.peak, st.num_allocs))) =
      some (150, 150, 2) ∧
     (((readyState 1000).run [Op.mall 100 4096, Op.mall 50 8192,
        Op.fre 4128]).map
          (fun st => (st.curr, st.peak, st.num_allocs))) =
      some (50, 150, 2) ∧
     (((readyState 1000).run [Op.mall 100 4096, Op.mall 50 8192,
        Op.fre 4128, Op.fre 8224]).map (fun st => st.curr)) = some 0) := by
  refine ⟨?_, ?_, ?_, by decide, by decide, by decide, by decide⟩
  · intro st s b hready hs
    obtain ⟨st1, heq, hcurr, hpeak, htotal, hnum, _, _, _, _, _, _, _, _,
      _⟩ := malloc_ready_spec st s b hready hs.ne'
    exact ⟨st1, heq, hcurr, htotal, hnum, hpeak⟩
  · intro st p s hready hp hout hmem
    obtain ⟨fc, fp, ft, fn, _, _, _, _, _, _⟩ :=
      free_real_spec st p hready hp hout
    rw [hmem] at fc
    exact ⟨fc, ft, fn⟩
  · intro ops st hready htr
    obtain ⟨st1, hrun, hcurr, htotal, hnum⟩ :=
      run_trace ops [] st hready (fun q hq => absurd hq (by simp)) htr
    refine ⟨st1, hrun, ?_, htotal, hnum, ?_⟩
    · rw [hcurr, liveSum_nil]
      omega
    · intro h0
      rw [hcurr, liveSum_nil, h0]
      simp

/-- witness for C1 at a concrete trace: on a fresh ready state the
two-event trace malloc(100) (real base 4096), free(4128) is
well-formed, and running it returns the current counter to 0 while
total becomes 100 and the count 1. -/
theorem malloc_free_sequence_accounting_witness :
    (readyState 1000).ready = true ∧
    TraceOK (readyState 1000).heapBase (readyState 1000).init_heap_use []
      [Op.mall 100 4096, Op.fre 4128] ∧
    (∃ st1, (readyState 1000).run [Op.mall 100 4096, Op.fre 4128] =
        some st1 ∧ st1.curr = (readyState 1000).curr ∧
      st1.total = (readyState 1000).total +
        mallocTotal [Op.mall 100 4096, Op.fre 4128] ∧
      st1.num_allocs = (readyState 1000).num_allocs +
        mallocCount [Op.mall 100 4096, Op.fre 4128] ∧
      ((readyState 1000).curr = 0 → st1.curr = 0)) := by
  have htr : TraceOK (readyState 1000).heapBase
      (readyState 1000).init_heap_use [] [Op.mall 100 4096, Op.fre 4128]
      := by
    simp only [TraceOK]
    refine ⟨by norm_num, by decide, by simp,
      ⟨(4096, 100), by simp, by rw [alignment_eq], by simp⟩⟩
  exact ⟨rfl, htr,
    malloc_free_sequence_accounting.2.2.1 [Op.mall 100 4096, Op.fre 4128]
      (readyState 1000) rfl htr⟩
